import Mathlib

/-!
Verification of the PRRTE command-line parser (src/util/cmd_line.c).

Strings from the C code are embedded as `List Char` (a C string is a
NUL-terminated character array; `NULL` pointers become `Option`).  The
result accumulator `prte_cli_result_t`, the item type `prte_cli_item_t`,
the default store callback `check_store`, the `endswith` helper and the
parsing loop `prte_cmd_line_parse` are translated directly from the
source.  The external option-scanning primitive (`getopt_long`) and the
external utilities (`pmix_argv_copy_strip`, `prte_show_help_string`)
are not part of this repository; they are modelled from the spec
(sections 3 and 6).  Help rendering is modelled by recording the calls
made to the rendering primitive as a list of `render_event`s.
-/

/-- Abbreviation: the characters of a string literal. -/
def str (s : String) : List Char := s.data

/-- Status codes returned by the parser.  The concrete integer values of
the PRRTE error constants live in a header outside this repository; only
their distinctness matters here, so they are modelled as an inductive. -/
inductive prte_status where
  | PRTE_SUCCESS
  | PRTE_ERR_SILENT
  | PRTE_ERR_BAD_PARAM
deriving DecidableEq

open prte_status

/-- One parsed option: a key and the ordered list of values recorded for
it (`prte_cli_item_t` from cmd_line.h; `values` is a pmix argv array). -/
structure prte_cli_item_t where
  key : List Char
  values : List (List Char)
deriving DecidableEq

/-- The parse result: ordered item list plus the optional tail of
unconsumed arguments (`prte_cli_result_t`). -/
structure prte_cli_result_t where
  instances : List prte_cli_item_t
  tail : Option (List (List Char))
deriving DecidableEq

/-- `endswith(str, suffix)` from cmd_line.c lines 39-56: PRTE_SUCCESS
iff `suffix` is no longer than `s` and the last `suffix.length`
characters of `s` equal `suffix` (the NULL-pointer checks disappear
because the embedding has no null strings). -/
def endswith (s suffix : List Char) : prte_status :=
  if suffix.length > s.length then PRTE_ERR_BAD_PARAM
  else if s.drop (s.length - suffix.length) = suffix then PRTE_SUCCESS
  else PRTE_ERR_BAD_PARAM

/-- The linear scan of `check_store` (cmd_line.c lines 63-73) together
with the append-new-item tail (lines 76-84), expressed as a recursion
over the instance list: the first item whose key matches gets the value
appended (nothing when the value is absent); when no item matches, a new
item carrying the key and the optional value is appended at the end. -/
def check_store_scan (name : List Char) (value : Option (List Char)) :
    List prte_cli_item_t → List prte_cli_item_t
  | [] =>
    [{ key := name, values := value.toList }]
  | it :: rest =>
    if it.key = name then
      (match value with
       | some v => { it with values := it.values ++ [v] }
       | none => it) :: rest
    else
      it :: check_store_scan name value rest

/-- `check_store(name, option, results)` from cmd_line.c lines 58-86.
Only `instances` is touched; `tail` is never modified by a store. -/
def check_store (name : List Char) (value : Option (List Char))
    (results : prte_cli_result_t) : prte_cli_result_t :=
  { results with instances := check_store_scan name value results.instances }

/-- The keys of a result's instance list, in order. -/
def instance_keys (l : List prte_cli_item_t) : List (List Char) :=
  l.map prte_cli_item_t.key

/-- First item of the list carrying the given key, if any. -/
def lookupItem (name : List Char) : List prte_cli_item_t → Option prte_cli_item_t
  | [] => none
  | it :: rest => if it.key = name then some it else lookupItem name rest

/-- The value sequence recorded for a key ([] when the key is absent). -/
def storedValues (name : List Char) (results : prte_cli_result_t) : List (List Char) :=
  match lookupItem name results.instances with
  | some it => it.values
  | none => []

/-- Folding the default store callback over a sequence of
(key, optional value) store calls, in order. -/
def storeAll (pairs : List (List Char × Option (List Char)))
    (results : prte_cli_result_t) : prte_cli_result_t :=
  pairs.foldl (fun acc p => check_store p.1 p.2 acc) results

-- ### The parser engine

/-- A long-option descriptor (`struct option` from getopt.h, as used by
cmd_line.c): canonical name, argument arity (`no_argument` = 0,
`required_argument` = 1, `optional_argument` = 2) and the `val` code the
scanner returns for it (0 for long-only options, a character code for
options that share a short code).  The C table's NULL-name sentinel is
replaced by the end of the Lean list. -/
structure struct_option where
  name : List Char
  has_arg : Nat
  val : Int
deriving DecidableEq

/-- PRTE_ARG_NONE (= no_argument = 0). -/
def PRTE_ARG_NONE : Nat := 0

/-- Indexing into the NULL-terminated argv array; glibc's printf
renders a NULL string argument as "(null)", which is what
`pmix_asprintf` would produce if the parser ever read past the end. -/
def argvAt (argv : List (List Char)) (i : Nat) : List Char :=
  argv.getD i (str "(null)")

/-- First character of a token; the NUL terminator when empty
(reading s[0] of an empty C string). -/
def firstChar (s : List Char) : Char :=
  s.headD (Char.ofNat 0)

/-- Split the body of a long-option token at the first '=' sign:
returns the name part and the attached argument, absent when no '='. -/
def split_eq : List Char → List Char × Option (List Char)
  | [] => ([], none)
  | c :: rest =>
    if c = '=' then ([], some rest)
    else
      let r := split_eq rest
      (c :: r.1, r.2)

/-- A quote character, for argv normalization. -/
def isQuote (c : Char) : Bool :=
  c = '\'' || c = '"'

/-- Modelled from the spec: the external argument-array normalization
utility `pmix_argv_copy_strip` (spec section 4.1 step 1 and section 6),
missing from src/ — copies the array, stripping leading and trailing
quote characters from each token. -/
def pmix_argv_copy_strip (argv : List (List Char)) : List (List Char) :=
  argv.map (fun s => ((s.dropWhile isQuote).reverse.dropWhile isQuote).reverse)

/-- What `getopt_long` reports for one call: the matched identity
(`opt`, with -1 for exhaustion, 0 for a long-only option, the character
code for short-coded options and 63 = the character code of the
question mark for unrecognized input), the attached argument slot
(`optarg`), the advanced cursor (`optind`), and the index of the
matched long option (`option_index`). -/
structure getopt_ret where
  opt : Int
  optarg : Option (List Char)
  optind : Nat
  option_index : Nat
deriving DecidableEq

/-- Modelled from the spec: the external option-scanning primitive
(spec sections 3 "ShortOptionSpec" / 6 "Option-scanning primitive";
GNU getopt_long), missing from src/.  One call scans the token at the
cursor: a token of the form "--name[=arg]" is matched exactly against
the long table (the scanner consuming the following token when the
arity requires an argument and none is attached); a token "-c[rest]"
is matched against the short spec, one colon after the code meaning a
required argument (attached remainder or the following token) and two
colons meaning an optional argument that is only ever taken from the
attached remainder; a cursor of 0 means reinitialize (scanning starts
at index 1); scanning stops at exhaustion, at the "--" terminator and
at the first non-option token (the spec's glossary defines a short
option as a single dash followed by one character, so option
clustering is not modelled). -/
def getopt_long (argc : Nat) (argv : List (List Char)) (shorts : List Char)
    (longopts : List struct_option) (ind0 : Nat) : getopt_ret :=
  let ind := if ind0 = 0 then 1 else ind0
  if argc ≤ ind then { opt := -1, optarg := none, optind := ind, option_index := 0 }
  else
    let tok := argvAt argv ind
    if tok = str "--" then { opt := -1, optarg := none, optind := ind + 1, option_index := 0 }
    else if tok.take 2 = str "--" ∧ 2 < tok.length then
      let body := tok.drop 2
      let nm := (split_eq body).1
      let attached := (split_eq body).2
      match List.findIdx? (fun o => o.name = nm) longopts with
      | none => { opt := 63, optarg := none, optind := ind + 1, option_index := 0 }
      | some i =>
        let o := longopts.getD i { name := [], has_arg := 0, val := 0 }
        if o.has_arg = 1 then
          match attached with
          | some a => { opt := o.val, optarg := some a, optind := ind + 1, option_index := i }
          | none =>
            if ind + 1 < argc then
              { opt := o.val, optarg := some (argvAt argv (ind + 1)),
                optind := ind + 2, option_index := i }
            else { opt := 63, optarg := none, optind := ind + 1, option_index := i }
        else if o.has_arg = 2 then
          { opt := o.val, optarg := attached, optind := ind + 1, option_index := i }
        else
          match attached with
          | some _ => { opt := 63, optarg := none, optind := ind + 1, option_index := i }
          | none => { opt := o.val, optarg := none, optind := ind + 1, option_index := i }
    else if firstChar tok = '-' ∧ 1 < tok.length then
      let c := (tok.drop 1).headD (Char.ofNat 0)
      let rest := tok.drop 2
      match List.findIdx? (fun x => x = c) shorts with
      | none => { opt := 63, optarg := none, optind := ind + 1, option_index := 0 }
      | some j =>
        if shorts.get? (j + 1) = some ':' then
          if shorts.get? (j + 2) = some ':' then
            { opt := Int.ofNat c.toNat,
              optarg := if rest.isEmpty then none else some rest,
              optind := ind + 1, option_index := 0 }
          else
            if rest.isEmpty then
              if ind + 1 < argc then
                { opt := Int.ofNat c.toNat, optarg := some (argvAt argv (ind + 1)),
                  optind := ind + 2, option_index := 0 }
              else { opt := 63, optarg := none, optind := ind + 1, option_index := 0 }
            else
              { opt := Int.ofNat c.toNat, optarg := some rest,
                optind := ind + 1, option_index := 0 }
        else { opt := Int.ofNat c.toNat, optarg := none, optind := ind + 1, option_index := 0 }
    else { opt := -1, optarg := none, optind := ind, option_index := 0 }

/-- One recorded call of the external help-rendering primitive
`prte_show_help_string(file, topic, isError, ...)` (substitution
arguments elided; whether the returned string was non-NULL and printed
is a property of the help file, not of the parser). -/
structure render_event where
  file : List Char
  topic : List Char
  err : Bool
deriving DecidableEq

/-- The type of the store callback (`prte_cmd_line_store_fn_t`). -/
def store_fn : Type :=
  List Char → Option (List Char) → prte_cli_result_t → prte_cli_result_t

/-- The help-request literals recognized for long options
(cmd_line.c lines 132-134). -/
def helpLits5 : List (List Char) :=
  [str "--help", str "-help", str "help", str "h", str "-h"]

/-- The help-request literals recognized in the short-option default
branch (cmd_line.c lines 313-314) — note that "-help" is absent here. -/
def helpLits4 : List (List Char) :=
  [str "--help", str "-h", str "help", str "h"]

/-- Outcome of one iteration of the `while(1)` scanning loop:
continue with a new cursor and results, return a status immediately
(the C exits never touch `results`), or fall out of the loop with the
final cursor (getopt_long reported -1). -/
inductive step_res where
  | cont (ind : Nat) (res : prte_cli_result_t) (renders : List render_event)
  | exit (rc : prte_status) (renders : List render_event)
  | done (ind : Nat)
deriving DecidableEq

/-- One iteration of the scanning loop of `prte_cmd_line_parse`
(cmd_line.c lines 120-357): call the scanner, then dispatch on the
matched identity — case 0 (long-only option: help-literal intercept,
the "mca"-suffix two-token merge which advances the cursor one extra
slot, or a plain store), case 'h' (contextual help, always an exit),
case 'V' (version, always an exit), and the default branch (other
short codes: re-derive the argument from the shorts spec, intercept
help literals, store under the name of the long descriptor sharing
the code, or report an error). -/
def parse_step (argc : Nat) (argv : List (List Char)) (shorts : List Char)
    (myoptions : List struct_option) (mystore : store_fn)
    (helpfile : List Char) (ind : Nat) (res : prte_cli_result_t) : step_res :=
  let argind := ind
  let r := getopt_long argc argv shorts myoptions ind
  if r.opt = -1 then
    .done r.optind
  else if r.opt = 0 then
    let o := myoptions.getD r.option_index { name := [], has_arg := 0, val := 0 }
    if r.optarg.any (fun a => a ∈ helpLits5) then
      .exit PRTE_ERR_SILENT [{ file := helpfile, topic := o.name, err := false }]
    else if endswith o.name (str "mca") = PRTE_SUCCESS then
      let s := argvAt argv (r.optind - 1) ++ '=' :: argvAt argv r.optind
      .cont (r.optind + 1) (mystore o.name (some s) res) []
    else
      .cont r.optind (mystore o.name r.optarg res) []
  else if r.opt = Int.ofNat 'h'.toNat then
    if r.optarg = none ∧ r.optind < argc then
      let ptr := (argvAt argv r.optind).dropWhile (fun ch => ch = '-')
      if ptr = str "version" ∨ ptr = str "V" then
        .exit PRTE_ERR_SILENT [{ file := str "help-cli.txt", topic := str "version", err := false }]
      else if ptr = str "verbose" ∨ ptr = str "v" then
        .exit PRTE_ERR_SILENT [{ file := str "help-cli.txt", topic := str "verbose", err := false }]
      else if ptr = str "help" ∨ ptr = str "h" then
        .exit PRTE_ERR_SILENT [{ file := str "help-cli.txt", topic := str "help", err := false }]
      else if myoptions.any (fun o => o.name = ptr) then
        .exit PRTE_ERR_SILENT [{ file := helpfile, topic := ptr, err := false }]
      else
        .exit PRTE_ERR_SILENT
          [{ file := str "help-cli.txt", topic := str "unknown-option", err := true }]
    else if r.optarg = none then
      .exit PRTE_ERR_SILENT [{ file := helpfile, topic := str "usage", err := false }]
    else
      .exit PRTE_ERR_SILENT
        [{ file := str "help-cli.txt", topic := str "unrecognized-option", err := true }]
  else if r.opt = Int.ofNat 'V'.toNat then
    .exit PRTE_ERR_SILENT [{ file := helpfile, topic := str "version", err := false }]
  else
    if argind ≠ 0 ∧ firstChar (argvAt argv argind) ≠ '-' then
      .cont r.optind res []
    else
      match List.findIdx? (fun ch => Int.ofNat ch.toNat = r.opt) shorts with
      | none =>
        .exit PRTE_ERR_SILENT
          [{ file := str "help-cli.txt", topic := str "unregistered-option", err := true }]
      | some n =>
        let ptr : Option (List Char) :=
          if shorts.get? (n + 1) = some ':' then
            if shorts.get? (n + 2) = some ':' then
              some ((argvAt argv (r.optind - 1)).drop 2)
            else r.optarg
          else none
        match List.findIdx? (fun o => o.val = r.opt) myoptions with
        | none =>
          .exit PRTE_ERR_SILENT
            [{ file := str "help-cli.txt", topic := str "short-no-long", err := true }]
        | some m =>
          let o := myoptions.getD m { name := [], has_arg := 0, val := 0 }
          if ptr.any (fun p => p ∈ helpLits4) then
            .exit PRTE_ERR_SILENT [{ file := helpfile, topic := o.name, err := true }]
          else
            let p2 := if o.has_arg = PRTE_ARG_NONE then none else ptr
            .cont r.optind (mystore o.name p2 res) []

/-- The scanning loop, fuel-indexed (the cursor strictly increases on
every continue, so `argc + 2` fuel always suffices).  On normal
exhaustion with unscanned tokens remaining, `tail` receives a copy of
the remaining tokens (cmd_line.c lines 359-363); the accumulated list
of render events is threaded through. -/
def parse_loop (fuel argc : Nat) (argv : List (List Char)) (shorts : List Char)
    (myoptions : List struct_option) (mystore : store_fn) (helpfile : List Char)
    (ind : Nat) (res : prte_cli_result_t) (renders : List render_event) :
    prte_status × prte_cli_result_t × List render_event :=
  match fuel with
  | 0 => (PRTE_SUCCESS, res, renders)
  | Nat.succ fuel' =>
    match parse_step argc argv shorts myoptions mystore helpfile ind res with
    | .done ind' =>
      if ind' < argc then
        (PRTE_SUCCESS, { res with tail := some (argv.drop ind') }, renders)
      else
        (PRTE_SUCCESS, res, renders)
    | .exit rc rs => (rc, res, renders ++ rs)
    | .cont ind' res' rs =>
      parse_loop fuel' argc argv shorts myoptions mystore helpfile ind' res' (renders ++ rs)

/-- `prte_cmd_line_parse` (cmd_line.c lines 88-364): normalize the
argument array, install the default store callback when none is given,
reset the scanner cursor, and run the scanning loop.  The returned
triple is the status, the caller's mutated result, and the sequence of
help-render calls made. -/
def prte_cmd_line_parse (pargv : List (List Char)) (shorts : List Char)
    (myoptions : List struct_option) (storefn : Option store_fn)
    (results : prte_cli_result_t) (helpfile : List Char) :
    prte_status × prte_cli_result_t × List render_event :=
  let argv := pmix_argv_copy_strip pargv
  let argc := argv.length
  let mystore := storefn.getD check_store
  parse_loop (argc + 2) argc argv shorts myoptions mystore helpfile 0 results []

-- ### Helper lemmas about the accumulator

@[simp]
theorem instance_keys_nil : instance_keys [] = [] := rfl

@[simp]
theorem instance_keys_cons (a : prte_cli_item_t) (l : List prte_cli_item_t) :
    instance_keys (a :: l) = a.key :: instance_keys l := rfl

theorem instance_keys_append (l₁ l₂ : List prte_cli_item_t) :
    instance_keys (l₁ ++ l₂) = instance_keys l₁ ++ instance_keys l₂ := by
  simp [instance_keys]

theorem mem_instance_keys_of_lookupItem (name : List Char)
    (l : List prte_cli_item_t) (it : prte_cli_item_t)
    (h : lookupItem name l = some it) : name ∈ instance_keys l := by
  induction l with
  | nil => simp [lookupItem] at h
  | cons a rest ih =>
    by_cases hk : a.key = name
    · rw [instance_keys_cons, List.mem_cons]; left; exact hk.symm
    · rw [lookupItem, if_neg hk] at h
      rw [instance_keys_cons, List.mem_cons]; right; exact ih h

theorem check_store_scan_keys_of_mem (name : List Char) (value : Option (List Char))
    (l : List prte_cli_item_t) (h : name ∈ instance_keys l) :
    instance_keys (check_store_scan name value l) = instance_keys l := by
  induction l with
  | nil => simp at h
  | cons it rest ih =>
    rw [instance_keys_cons, List.mem_cons] at h
    by_cases hk : it.key = name
    · cases value <;> simp [check_store_scan, hk]
    · have h' : name ∈ instance_keys rest := by
        rcases h with h | h
        · exact absurd h.symm hk
        · exact h
      simp [check_store_scan, hk, ih h']

theorem check_store_scan_not_mem (name : List Char) (value : Option (List Char))
    (l : List prte_cli_item_t) (h : name ∉ instance_keys l) :
    check_store_scan name value l = l ++ [{ key := name, values := value.toList }] := by
  induction l with
  | nil => simp [check_store_scan]
  | cons it rest ih =>
    rw [instance_keys_cons, List.mem_cons] at h
    push_neg at h
    obtain ⟨h1, h2⟩ := h
    have hk : ¬(it.key = name) := fun hc => h1 hc.symm
    simp [check_store_scan, hk, ih h2]

theorem lookupItem_check_store_scan (name : List Char) (value : Option (List Char))
    (l : List prte_cli_item_t) :
    lookupItem name (check_store_scan name value l) =
      some { key := name,
             values := (match lookupItem name l with
                        | some it => it.values
                        | none => []) ++ value.toList } := by
  induction l with
  | nil =>
    cases value <;> simp [check_store_scan, lookupItem]
  | cons it rest ih =>
    obtain ⟨k, vs⟩ := it
    by_cases hk : k = name
    · subst hk
      cases value <;> simp [check_store_scan, lookupItem]
    · simp [check_store_scan, lookupItem, hk, ih]

theorem lookupItem_check_store_scan_ne (name other : List Char)
    (value : Option (List Char)) (l : List prte_cli_item_t) (h : other ≠ name) :
    lookupItem other (check_store_scan name value l) = lookupItem other l := by
  have hno : ¬(name = other) := fun hc => h hc.symm
  induction l with
  | nil =>
    cases value <;> simp [check_store_scan, lookupItem, hno]
  | cons it rest ih =>
    obtain ⟨k, vs⟩ := it
    by_cases hk : k = name
    · subst hk
      cases value <;> simp [check_store_scan, lookupItem, hno]
    · simp only [check_store_scan, lookupItem, if_neg hk]
      by_cases hko : k = other
      · simp [hko]
      · simp [hko, ih]

theorem check_store_scan_nodup (name : List Char) (value : Option (List Char))
    (l : List prte_cli_item_t) (h : (instance_keys l).Nodup) :
    (instance_keys (check_store_scan name value l)).Nodup := by
  by_cases hm : name ∈ instance_keys l
  · rw [check_store_scan_keys_of_mem name value l hm]; exact h
  · rw [check_store_scan_not_mem name value l hm]
    simp only [instance_keys, List.map_append, List.map_cons, List.map_nil]
    rw [List.nodup_append]
    refine ⟨h, by simp, ?_⟩
    intro a ha
    simp only [List.mem_cons, List.not_mem_nil, or_false]
    intro hc
    exact hm (by simpa [instance_keys, hc] using ha)

theorem storedValues_check_store (name : List Char) (value : Option (List Char))
    (results : prte_cli_result_t) :
    storedValues name (check_store name value results) =
      storedValues name results ++ value.toList := by
  simp [storedValues, check_store, lookupItem_check_store_scan]

theorem storedValues_check_store_ne (name other : List Char)
    (value : Option (List Char)) (results : prte_cli_result_t) (h : other ≠ name) :
    storedValues other (check_store name value results) = storedValues other results := by
  simp [storedValues, check_store, lookupItem_check_store_scan_ne name other value _ h]

theorem storedValues_storeAll (pairs : List (List Char × Option (List Char)))
    (results : prte_cli_result_t) (k : List Char) :
    storedValues k (storeAll pairs results) =
      storedValues k results ++
        pairs.filterMap (fun p => if p.1 = k then p.2 else none) := by
  induction pairs generalizing results with
  | nil => simp [storeAll]
  | cons p rest ih =>
    have hstep : storeAll (p :: rest) results = storeAll rest (check_store p.1 p.2 results) := by
      simp [storeAll]
    rw [hstep, ih]
    by_cases hk : p.1 = k
    · subst hk
      rw [storedValues_check_store]
      cases hv : p.2 <;> simp [List.filterMap_cons, hv]
    · rw [storedValues_check_store_ne p.1 k p.2 results (fun hc => hk hc.symm)]
      simp [List.filterMap_cons, hk]

-- ### Infrastructure lemmas about the scanning loop

theorem check_store_tail (name : List Char) (value : Option (List Char))
    (results : prte_cli_result_t) :
    (check_store name value results).tail = results.tail := rfl

theorem instance_keys_subset_check_store (name : List Char) (value : Option (List Char))
    (results : prte_cli_result_t) (k : List Char)
    (h : k ∈ instance_keys results.instances) :
    k ∈ instance_keys (check_store name value results).instances := by
  by_cases hm : name ∈ instance_keys results.instances
  · rw [check_store, check_store_scan_keys_of_mem name value _ hm]; exact h
  · rw [check_store, check_store_scan_not_mem name value _ hm, instance_keys_append]
    exact List.mem_append_left _ h

theorem storedValues_prefix_check_store (name : List Char) (value : Option (List Char))
    (results : prte_cli_result_t) (k : List Char) :
    storedValues k results <+: storedValues k (check_store name value results) := by
  by_cases hk : k = name
  · subst hk
    rw [storedValues_check_store]
    exact List.prefix_append _ _
  · rw [storedValues_check_store_ne name k value results hk]

theorem split_eq_of_no_eq (l : List Char) (h : ('=' : Char) ∉ l) :
    split_eq l = (l, none) := by
  induction l with
  | nil => rfl
  | cons c rest ih =>
    rw [List.mem_cons] at h
    push_neg at h
    simp [split_eq, Ne.symm h.1, ih h.2]

theorem parse_loop_done (fuel argc : Nat) (argv : List (List Char)) (shorts : List Char)
    (myoptions : List struct_option) (mystore : store_fn) (helpfile : List Char)
    (ind : Nat) (res : prte_cli_result_t) (renders : List render_event) (ind' : Nat)
    (h : parse_step argc argv shorts myoptions mystore helpfile ind res = .done ind') :
    parse_loop (fuel + 1) argc argv shorts myoptions mystore helpfile ind res renders
      = if ind' < argc then
          (PRTE_SUCCESS, { res with tail := some (argv.drop ind') }, renders)
        else (PRTE_SUCCESS, res, renders) := by
  rw [parse_loop, h]

theorem parse_loop_exit (fuel argc : Nat) (argv : List (List Char)) (shorts : List Char)
    (myoptions : List struct_option) (mystore : store_fn) (helpfile : List Char)
    (ind : Nat) (res : prte_cli_result_t) (renders : List render_event)
    (rc : prte_status) (rs : List render_event)
    (h : parse_step argc argv shorts myoptions mystore helpfile ind res = .exit rc rs) :
    parse_loop (fuel + 1) argc argv shorts myoptions mystore helpfile ind res renders
      = (rc, res, renders ++ rs) := by
  rw [parse_loop, h]

theorem parse_loop_cont (fuel argc : Nat) (argv : List (List Char)) (shorts : List Char)
    (myoptions : List struct_option) (mystore : store_fn) (helpfile : List Char)
    (ind : Nat) (res : prte_cli_result_t) (renders : List render_event)
    (ind' : Nat) (res' : prte_cli_result_t) (rs : List render_event)
    (h : parse_step argc argv shorts myoptions mystore helpfile ind res = .cont ind' res' rs) :
    parse_loop (fuel + 1) argc argv shorts myoptions mystore helpfile ind res renders
      = parse_loop fuel argc argv shorts myoptions mystore helpfile ind' res' (renders ++ rs) := by
  rw [parse_loop, h]

theorem parse_step_cont_cases (argc : Nat) (argv : List (List Char)) (shorts : List Char)
    (myoptions : List struct_option) (mystore : store_fn) (helpfile : List Char)
    (ind : Nat) (res : prte_cli_result_t) (ind' : Nat) (res' : prte_cli_result_t)
    (rs : List render_event)
    (h : parse_step argc argv shorts myoptions mystore helpfile ind res = .cont ind' res' rs) :
    res' = res ∨ ∃ nm v, res' = mystore nm v res := by
  simp only [parse_step] at h
  repeat' split at h
  all_goals (first
    | exact step_res.noConfusion h
    | (injection h with h1 h2 h3
       first
         | exact Or.inl h2.symm
         | exact Or.inr ⟨_, _, h2.symm⟩))

theorem parse_loop_silent_preserves (argc : Nat) (argv : List (List Char))
    (shorts : List Char) (myoptions : List struct_option) (helpfile : List Char) :
    ∀ (fuel ind : Nat) (res : prte_cli_result_t) (renders : List render_event),
    (parse_loop fuel argc argv shorts myoptions check_store helpfile ind res renders).1
        = PRTE_ERR_SILENT →
    (parse_loop fuel argc argv shorts myoptions check_store helpfile ind res renders).2.1.tail
        = res.tail
    ∧ (∀ k, k ∈ instance_keys res.instances →
        k ∈ instance_keys
          (parse_loop fuel argc argv shorts myoptions check_store helpfile
            ind res renders).2.1.instances)
    ∧ (∀ k, storedValues k res <+:
        storedValues k
          (parse_loop fuel argc argv shorts myoptions check_store helpfile
            ind res renders).2.1) := by
  intro fuel
  induction fuel with
  | zero =>
    intro ind res renders h
    simp [parse_loop] at h
  | succ fuel' ih =>
    intro ind res renders h
    cases hs : parse_step argc argv shorts myoptions check_store helpfile ind res with
    | done ind' =>
      rw [parse_loop_done fuel' argc argv shorts myoptions check_store helpfile
            ind res renders ind' hs] at h
      split at h <;> simp at h
    | exit rc rs =>
      rw [parse_loop_exit fuel' argc argv shorts myoptions check_store helpfile
            ind res renders rc rs hs]
      exact ⟨rfl, fun k hk => hk, fun k => List.prefix_refl _⟩
    | cont ind' res' rs =>
      rw [parse_loop_cont fuel' argc argv shorts myoptions check_store helpfile
            ind res renders ind' res' rs hs] at h ⊢
      obtain ⟨h1, h2, h3⟩ := ih ind' res' (renders ++ rs) h
      rcases parse_step_cont_cases argc argv shorts myoptions check_store helpfile
          ind res ind' res' rs hs with hcase | ⟨nm, v, hcase⟩
      · subst hcase; exact ⟨h1, h2, h3⟩
      · subst hcase
        refine ⟨by rw [h1, check_store_tail], ?_, ?_⟩
        · intro k hk
          exact h2 k (instance_keys_subset_check_store nm v res k hk)
        · intro k
          exact List.IsPrefix.trans (storedValues_prefix_check_store nm v res k) (h3 k)

-- ### Claims about the accumulator

/-- Claim C2: the default store callback keeps keys unique.  If the key
already exists in `results.instances` the existing item is reused (its
key list is unchanged, and the value — when present — is appended to
that item's values); otherwise a new item carrying the key and the
optional value (empty value sequence for an absent value) is appended at
the end.  Hence the stored key is always present afterwards, and key
uniqueness (`Nodup`) is preserved. -/
theorem C2_check_store_unique (name : List Char) (value : Option (List Char))
    (results : prte_cli_result_t)
    (h : (instance_keys results.instances).Nodup) :
    (instance_keys (check_store name value results).instances).Nodup
    ∧ (name ∈ instance_keys results.instances →
        instance_keys (check_store name value results).instances
          = instance_keys results.instances)
    ∧ (name ∉ instance_keys results.instances →
        (check_store name value results).instances
          = results.instances ++ [{ key := name, values := value.toList }])
    ∧ lookupItem name (check_store name value results).instances
        = some { key := name, values := storedValues name results ++ value.toList }
    ∧ name ∈ instance_keys (check_store name value results).instances := by
  refine ⟨check_store_scan_nodup name value _ h, ?_, ?_, ?_, ?_⟩
  · intro hm; exact check_store_scan_keys_of_mem name value _ hm
  · intro hm; simp [check_store]; exact check_store_scan_not_mem name value _ hm
  · simpa [check_store, storedValues] using lookupItem_check_store_scan name value results.instances
  · exact mem_instance_keys_of_lookupItem name _ _
      (by simpa [check_store, storedValues] using
        lookupItem_check_store_scan name value results.instances)

/-- Witness for C2 at a concrete input: a result already holding key
"a", storing key "b" with an absent value. -/
theorem C2_check_store_unique_witness :
    (instance_keys ({ instances := [{ key := str "a", values := [str "x"] }],
                      tail := none } : prte_cli_result_t).instances).Nodup
    ∧ ((instance_keys (check_store (str "b") none
          { instances := [{ key := str "a", values := [str "x"] }],
            tail := none }).instances).Nodup
       ∧ (str "b" ∈ instance_keys [{ key := str "a", values := [str "x"] }] →
           instance_keys (check_store (str "b") none
             { instances := [{ key := str "a", values := [str "x"] }],
               tail := none }).instances
             = instance_keys [{ key := str "a", values := [str "x"] }])
       ∧ (str "b" ∉ instance_keys [{ key := str "a", values := [str "x"] }] →
           (check_store (str "b") none
             { instances := [{ key := str "a", values := [str "x"] }],
               tail := none }).instances
             = [{ key := str "a", values := [str "x"] }]
                 ++ [{ key := str "b", values := (none : Option (List Char)).toList }])
       ∧ lookupItem (str "b") (check_store (str "b") none
           { instances := [{ key := str "a", values := [str "x"] }],
             tail := none }).instances
           = some { key := str "b",
                    values := storedValues (str "b")
                        { instances := [{ key := str "a", values := [str "x"] }],
                          tail := none } ++ (none : Option (List Char)).toList }
       ∧ str "b" ∈ instance_keys (check_store (str "b") none
           { instances := [{ key := str "a", values := [str "x"] }],
             tail := none }).instances) :=
  ⟨by decide,
   C2_check_store_unique (str "b") none
     { instances := [{ key := str "a", values := [str "x"] }], tail := none }
     (by decide)⟩

/-- Claim C4: repeated stores of the same key accumulate the present
values in call order: starting from an empty result, the value sequence
recorded for a key equals the left-to-right sequence of present values
stored under that key.  (The parser issues store calls in command-line
left-to-right scan order, so this is encounter order.) -/
theorem C4_values_in_order (pairs : List (List Char × Option (List Char)))
    (k : List Char) :
    storedValues k (storeAll pairs { instances := [], tail := none }) =
      pairs.filterMap (fun p => if p.1 = k then p.2 else none) := by
  rw [storedValues_storeAll]
  simp [storedValues, lookupItem]

-- ### Claims about the parser engine

/-- Claim C3: whenever the scanner matches a long-only option (identity
0) whose scanned argument is one of the five help-request literals, the
loop renders the help topic named by that option (index
`option_index` of the table) against the help file, returns the
silent-error status immediately, and leaves the results untouched (the
option is not stored).  Lines 126-143 of cmd_line.c. -/
theorem C3_long_help_exit (fuel argc : Nat) (argv : List (List Char)) (shorts : List Char)
    (myoptions : List struct_option) (mystore : store_fn) (helpfile : List Char)
    (ind : Nat) (res : prte_cli_result_t) (renders : List render_event)
    (a : List Char) (ind' i : Nat)
    (hg : getopt_long argc argv shorts myoptions ind
            = { opt := 0, optarg := some a, optind := ind', option_index := i })
    (ha : a ∈ helpLits5) :
    parse_loop (fuel + 1) argc argv shorts myoptions mystore helpfile ind res renders
      = (PRTE_ERR_SILENT, res,
         renders ++ [{ file := helpfile,
                       topic := (myoptions.getD i
                         { name := [], has_arg := 0, val := 0 }).name,
                       err := false }]) := by
  have hstep : parse_step argc argv shorts myoptions mystore helpfile ind res
      = .exit PRTE_ERR_SILENT
          [{ file := helpfile,
             topic := (myoptions.getD i { name := [], has_arg := 0, val := 0 }).name,
             err := false }] := by
    simp only [parse_step, hg]
    norm_num [ha]
  exact parse_loop_exit fuel argc argv shorts myoptions mystore helpfile ind res renders
    PRTE_ERR_SILENT _ hstep

/-- Witness for C3: a long option `--foo` with required argument, input
`["prog","--foo","help"]` — the `foo` topic is rendered against the
help file, silent-error is returned, and `foo` is not stored. -/
theorem C3_long_help_exit_witness :
    parse_loop (4 + 1) 3 [str "prog", str "--foo", str "help"] []
        [{ name := str "foo", has_arg := 1, val := 0 }] check_store (str "hf.txt")
        0 { instances := [], tail := none } []
      = (PRTE_ERR_SILENT, { instances := [], tail := none },
         [{ file := str "hf.txt", topic := str "foo", err := false }]) :=
  C3_long_help_exit 4 3 [str "prog", str "--foo", str "help"] []
    [{ name := str "foo", has_arg := 1, val := 0 }] check_store (str "hf.txt")
    0 { instances := [], tail := none } [] (str "help") 3 0
    (by decide) (by decide)

/-- Claim C8: whenever the scanner reports the version short code 'V',
the loop renders the "version" topic against the help file and returns
silent-error immediately — no further argument is scanned and the
results are untouched.  Lines 253-264 of cmd_line.c. -/
theorem C8_version_silent (fuel argc : Nat) (argv : List (List Char)) (shorts : List Char)
    (myoptions : List struct_option) (mystore : store_fn) (helpfile : List Char)
    (ind : Nat) (res : prte_cli_result_t) (renders : List render_event)
    (oarg : Option (List Char)) (ind' oi : Nat)
    (hg : getopt_long argc argv shorts myoptions ind
            = { opt := Int.ofNat 'V'.toNat, optarg := oarg,
                optind := ind', option_index := oi }) :
    parse_loop (fuel + 1) argc argv shorts myoptions mystore helpfile ind res renders
      = (PRTE_ERR_SILENT, res,
         renders ++ [{ file := helpfile, topic := str "version", err := false }]) := by
  have hstep : parse_step argc argv shorts myoptions mystore helpfile ind res
      = .exit PRTE_ERR_SILENT
          [{ file := helpfile, topic := str "version", err := false }] := by
    simp only [parse_step, hg]
    rw [if_neg (by decide : ¬(Int.ofNat 'V'.toNat = -1)),
        if_neg (by decide : ¬(Int.ofNat 'V'.toNat = 0)),
        if_neg (by decide : ¬(Int.ofNat 'V'.toNat = Int.ofNat 'h'.toNat)),
        if_pos trivial]
  exact parse_loop_exit fuel argc argv shorts myoptions mystore helpfile ind res renders
    PRTE_ERR_SILENT _ hstep

/-- Witness for C8: shortSpec `"hV"` and the single token `-V` —
silent-error is returned, the version topic is rendered, nothing is
stored and the scanning stops. -/
theorem C8_version_silent_witness :
    parse_loop (3 + 1) 2 [str "prog", str "-V"] (str "hV") [] check_store
        (str "hf.txt") 0 { instances := [], tail := none } []
      = (PRTE_ERR_SILENT, { instances := [], tail := none },
         [{ file := str "hf.txt", topic := str "version", err := false }]) :=
  C8_version_silent 3 2 [str "prog", str "-V"] (str "hV") [] check_store
    (str "hf.txt") 0 { instances := [], tail := none } [] none 2 0 (by decide)

/-- Claim C10: the "mca" merge branch (lines 145-153 of cmd_line.c)
composes the stored value from the raw argv token at cursor position
optind-1 — not from the scanner-provided argument — joined by an
equals sign with the token at optind, and advances the cursor one
extra slot; consequently, when the argument is attached as a single
token "--myplugin_mca=key" followed by "value", the stored value is
"--myplugin_mca=key=value" rather than "key=value". -/
theorem C10_mca_raw_token :
    (∀ (argc : Nat) (argv : List (List Char)) (shorts : List Char)
       (myoptions : List struct_option) (mystore : store_fn) (helpfile : List Char)
       (ind : Nat) (res : prte_cli_result_t) (oarg : Option (List Char)) (ind' i : Nat),
       getopt_long argc argv shorts myoptions ind
           = { opt := 0, optarg := oarg, optind := ind', option_index := i } →
       (∀ a, oarg = some a → a ∉ helpLits5) →
       endswith (myoptions.getD i { name := [], has_arg := 0, val := 0 }).name (str "mca")
           = PRTE_SUCCESS →
       parse_step argc argv shorts myoptions mystore helpfile ind res
         = .cont (ind' + 1)
             (mystore (myoptions.getD i { name := [], has_arg := 0, val := 0 }).name
               (some (argvAt argv (ind' - 1) ++ '=' :: argvAt argv ind')) res)
             [])
    ∧ prte_cmd_line_parse [str "prog", str "--myplugin_mca=key", str "value"]
          [] [{ name := str "myplugin_mca", has_arg := 1, val := 0 }] none
          { instances := [], tail := none } (str "hf.txt")
        = (PRTE_SUCCESS,
           { instances := [{ key := str "myplugin_mca",
                             values := [str "--myplugin_mca=key=value"] }],
             tail := none },
           []) := by
  constructor
  · intro argc argv shorts myoptions mystore helpfile ind res oarg ind' i hg hfree hmca
    have hany : Option.any (fun a => decide (a ∈ helpLits5)) oarg = false := by
      cases oarg with
      | none => rfl
      | some a => simpa using hfree a rfl
    simp only [parse_step, hg, hany]
    rw [if_neg (by decide : ¬((0 : Int) = -1)), if_pos trivial,
        if_neg (by decide : ¬(false = true)), if_pos hmca]
  · decide

/-- Witness for C10's general part, at the attached-form input of its
concrete part: the step stores "--myplugin_mca=key=value". -/
theorem C10_mca_raw_token_witness :
    parse_step 3 [str "prog", str "--myplugin_mca=key", str "value"] []
        [{ name := str "myplugin_mca", has_arg := 1, val := 0 }] check_store
        (str "hf.txt") 0 { instances := [], tail := none }
      = .cont 3
          (check_store (str "myplugin_mca") (some (str "--myplugin_mca=key=value"))
            { instances := [], tail := none })
          [] :=
  C10_mca_raw_token.1 3 [str "prog", str "--myplugin_mca=key", str "value"] []
    [{ name := str "myplugin_mca", has_arg := 1, val := 0 }] check_store
    (str "hf.txt") 0 { instances := [], tail := none } (some (str "key")) 2 0
    (by decide) (by intro a ha; cases ha; decide) (by decide)

/-- Claim C5: `tail` is only ever assigned on the normal-exhaustion
exit path (lines 359-363 of cmd_line.c) — on a silent-error exit the
tail is exactly what the caller passed in — and for the input
`["prog","positional1","positional2"]` with no matching options the
parse returns success with both positionals as the tail and empty
instances.  (In the embedding the single assignment site is the `done`
branch of `parse_loop`, so "at most once per call" holds by
construction; the first conjunct proves the silent-exit half.) -/
theorem C5_tail_only_on_normal_exit :
    (∀ (fuel argc : Nat) (argv : List (List Char)) (shorts : List Char)
       (myoptions : List struct_option) (helpfile : List Char)
       (ind : Nat) (res : prte_cli_result_t) (renders : List render_event),
       (parse_loop fuel argc argv shorts myoptions check_store helpfile ind res renders).1
           = PRTE_ERR_SILENT →
       (parse_loop fuel argc argv shorts myoptions check_store helpfile
           ind res renders).2.1.tail
         = res.tail)
    ∧ prte_cmd_line_parse [str "prog", str "positional1", str "positional2"] [] [] none
          { instances := [], tail := none } (str "hf.txt")
        = (PRTE_SUCCESS,
           { instances := [], tail := some [str "positional1", str "positional2"] },
           []) := by
  constructor
  · intro fuel argc argv shorts myoptions helpfile ind res renders h
    exact (parse_loop_silent_preserves argc argv shorts myoptions helpfile
      fuel ind res renders h).1
  · decide

/-- Witness for C5's first conjunct: a silent-error run (long option
argument "help") leaves a pre-existing tail untouched. -/
theorem C5_tail_only_on_normal_exit_witness :
    (parse_loop 5 3 [str "prog", str "--foo", str "help"] []
        [{ name := str "foo", has_arg := 1, val := 0 }] check_store (str "hf.txt")
        0 { instances := [], tail := some [str "t"] } []).2.1.tail
      = some [str "t"] :=
  C5_tail_only_on_normal_exit.1 5 3 [str "prog", str "--foo", str "help"] []
    [{ name := str "foo", has_arg := 1, val := 0 }] (str "hf.txt")
    0 { instances := [], tail := some [str "t"] } [] (by decide)

/-- Claim C9: a silent-error exit is not atomic — every key present in
the results when an iteration of the loop starts is still present when
the loop returns silent-error, each key's value sequence is only ever
extended (old values are a prefix of the final ones), and only `tail`
is guaranteed untouched on such an exit. -/
theorem C9_silent_exit_not_atomic (fuel argc : Nat) (argv : List (List Char))
    (shorts : List Char) (myoptions : List struct_option) (helpfile : List Char)
    (ind : Nat) (res : prte_cli_result_t) (renders : List render_event)
    (h : (parse_loop fuel argc argv shorts myoptions check_store helpfile ind res renders).1
           = PRTE_ERR_SILENT) :
    (∀ k, k ∈ instance_keys res.instances →
       k ∈ instance_keys
         (parse_loop fuel argc argv shorts myoptions check_store helpfile
           ind res renders).2.1.instances)
    ∧ (∀ k, storedValues k res <+:
        storedValues k
          (parse_loop fuel argc argv shorts myoptions check_store helpfile
            ind res renders).2.1)
    ∧ (parse_loop fuel argc argv shorts myoptions check_store helpfile
         ind res renders).2.1.tail = res.tail := by
  obtain ⟨h1, h2, h3⟩ := parse_loop_silent_preserves argc argv shorts myoptions helpfile
    fuel ind res renders h
  exact ⟨h2, h3, h1⟩

/-- Witness for C9: results already holding key "pre" when the loop
hits a help exit (`--bar help`) still hold "pre" afterwards. -/
theorem C9_silent_exit_not_atomic_witness :
    str "pre" ∈ instance_keys
      (parse_loop 5 3 [str "prog", str "--bar", str "help"] []
        [{ name := str "bar", has_arg := 1, val := 0 }] check_store (str "hf.txt") 0
        { instances := [{ key := str "pre", values := [str "x"] }], tail := none }
        []).2.1.instances :=
  (C9_silent_exit_not_atomic 5 3 [str "prog", str "--bar", str "help"] []
    [{ name := str "bar", has_arg := 1, val := 0 }] (str "hf.txt") 0
    { instances := [{ key := str "pre", values := [str "x"] }], tail := none }
    [] (by decide)).1 (str "pre") (by decide)

/-- Counterexample to claim C7 as stated: the short-option help check
(cmd_line.c lines 313-314) omits the literal "-help", so with a short
option `-z` (required argument) and input `["prog","-z","-help"]` the
computed argument "-help" — one of the claim's five help-request
literals — is stored as the option's value and the parse returns
success with no help rendered, instead of the claimed silent-error. -/
theorem C7_counterexample :
    prte_cmd_line_parse [str "prog", str "-z", str "-help"] (str "z:")
        [{ name := str "zopt", has_arg := 1, val := Int.ofNat 'z'.toNat }] none
        { instances := [], tail := none } (str "hf.txt")
      = (PRTE_SUCCESS,
         { instances := [{ key := str "zopt", values := [str "-help"] }], tail := none },
         []) := by
  decide

/-- Claim C7 as amended: in the default short-option dispatch branch
the recognized help-request literals are only "--help", "-h", "help"
and "h" (the long-option literal "-help" is not checked there).  For
every short option other than 'h' and 'V' whose computed argument
equals one of those four literals, the loop renders that option's
specific help (against the help file, as an error-style lookup) and
returns silent-error without storing the option. -/
theorem C7_short_help_amended (fuel argc : Nat) (argv : List (List Char))
    (shorts : List Char) (myoptions : List struct_option) (mystore : store_fn)
    (helpfile : List Char) (ind : Nat) (res : prte_cli_result_t)
    (renders : List render_event) (c : Char) (oarg : Option (List Char))
    (ind' oi n m : Nat) (p : List Char)
    (hg : getopt_long argc argv shorts myoptions ind
            = { opt := Int.ofNat c.toNat, optarg := oarg,
                optind := ind', option_index := oi })
    (hc0 : ¬(Int.ofNat c.toNat = 0))
    (hch : ¬(Int.ofNat c.toNat = Int.ofNat 'h'.toNat))
    (hcV : ¬(Int.ofNat c.toNat = Int.ofNat 'V'.toNat))
    (hguard : ¬(ind ≠ 0 ∧ firstChar (argvAt argv ind) ≠ '-'))
    (hn : List.findIdx? (fun ch => decide (Int.ofNat ch.toNat = Int.ofNat c.toNat)) shorts
            = some n)
    (hm : List.findIdx? (fun o => decide (o.val = Int.ofNat c.toNat)) myoptions = some m)
    (hp : (if shorts.get? (n + 1) = some ':' then
             if shorts.get? (n + 2) = some ':' then
               some ((argvAt argv (ind' - 1)).drop 2)
             else oarg
           else none) = some p)
    (hph : p ∈ helpLits4) :
    parse_loop (fuel + 1) argc argv shorts myoptions mystore helpfile ind res renders
      = (PRTE_ERR_SILENT, res,
         renders ++ [{ file := helpfile,
                       topic := (myoptions.getD m
                         { name := [], has_arg := 0, val := 0 }).name,
                       err := true }]) := by
  have h1 : ¬(Int.ofNat c.toNat = -1) := by
    intro hc
    rw [Int.ofNat_eq_coe] at hc
    omega
  have hstep : parse_step argc argv shorts myoptions mystore helpfile ind res
      = .exit PRTE_ERR_SILENT
          [{ file := helpfile,
             topic := (myoptions.getD m { name := [], has_arg := 0, val := 0 }).name,
             err := true }] := by
    simp only [parse_step, hg]
    rw [if_neg h1, if_neg hc0, if_neg hch, if_neg hcV, if_neg hguard]
    simp only [hn, hm, hp]
    simp [hph]
  exact parse_loop_exit fuel argc argv shorts myoptions mystore helpfile ind res renders
    PRTE_ERR_SILENT _ hstep

/-- Witness for the amended C7: `-z -h` with shortSpec "z:" renders the
`zopt` topic and returns silent-error without storing. -/
theorem C7_short_help_amended_witness :
    parse_loop (4 + 1) 3 [str "prog", str "-z", str "-h"] (str "z:")
        [{ name := str "zopt", has_arg := 1, val := Int.ofNat 'z'.toNat }] check_store
        (str "hf.txt") 0 { instances := [], tail := none } []
      = (PRTE_ERR_SILENT, { instances := [], tail := none },
         [{ file := str "hf.txt", topic := str "zopt", err := true }]) :=
  C7_short_help_amended 4 3 [str "prog", str "-z", str "-h"] (str "z:")
    [{ name := str "zopt", has_arg := 1, val := Int.ofNat 'z'.toNat }] check_store
    (str "hf.txt") 0 { instances := [], tail := none } [] 'z' (some (str "-h")) 3 0 0 0
    (str "-h") (by decide) (by decide) (by decide) (by decide) (by decide) (by decide)
    (by decide) (by decide) (by decide)

/-- Claim C6: for a short-option code declared with two colons in the
shorts spec (optional attached argument), the value the loop stores is
the remainder of the raw token at cursor position optind-1 after
dropping exactly two characters (the dash and the option character) —
whatever argument value `oarg` the scanner reported, so a
space-separated value is never taken as this option's argument.
Lines 294-306 and 324-328 of cmd_line.c. -/
theorem C6_optional_attached (argc : Nat) (argv : List (List Char)) (shorts : List Char)
    (myoptions : List struct_option) (mystore : store_fn) (helpfile : List Char)
    (ind : Nat) (res : prte_cli_result_t) (c : Char) (oarg : Option (List Char))
    (ind' oi n m : Nat)
    (hg : getopt_long argc argv shorts myoptions ind
            = { opt := Int.ofNat c.toNat, optarg := oarg,
                optind := ind', option_index := oi })
    (hc0 : ¬(Int.ofNat c.toNat = 0))
    (hch : ¬(Int.ofNat c.toNat = Int.ofNat 'h'.toNat))
    (hcV : ¬(Int.ofNat c.toNat = Int.ofNat 'V'.toNat))
    (hguard : ¬(ind ≠ 0 ∧ firstChar (argvAt argv ind) ≠ '-'))
    (hn : List.findIdx? (fun ch => decide (Int.ofNat ch.toNat = Int.ofNat c.toNat)) shorts
            = some n)
    (hcolon1 : shorts.get? (n + 1) = some ':')
    (hcolon2 : shorts.get? (n + 2) = some ':')
    (hm : List.findIdx? (fun o => decide (o.val = Int.ofNat c.toNat)) myoptions = some m)
    (hhelp : (argvAt argv (ind' - 1)).drop 2 ∉ helpLits4)
    (harg : ¬((myoptions.getD m { name := [], has_arg := 0, val := 0 }).has_arg
                = PRTE_ARG_NONE)) :
    parse_step argc argv shorts myoptions mystore helpfile ind res
      = .cont ind'
          (mystore (myoptions.getD m { name := [], has_arg := 0, val := 0 }).name
            (some ((argvAt argv (ind' - 1)).drop 2)) res)
          [] := by
  have h1 : ¬(Int.ofNat c.toNat = -1) := by
    intro hc
    rw [Int.ofNat_eq_coe] at hc
    omega
  simp only [parse_step, hg]
  rw [if_neg h1, if_neg hc0, if_neg hch, if_neg hcV, if_neg hguard]
  simp only [hn, hm, hcolon1, hcolon2]
  have harg' : ¬((myoptions[m]?.getD
      { name := [], has_arg := 0, val := 0 } : struct_option).has_arg = PRTE_ARG_NONE) := by
    simpa [List.getD_eq_getElem?_getD] using harg
  simp [hhelp, harg']

/-- Witness for C6: shortSpec "z::" and token "-zfoo" — the stored
argument is "foo", the remainder of the raw token after two
characters. -/
theorem C6_optional_attached_witness :
    parse_step 2 [str "prog", str "-zfoo"] (str "z::")
        [{ name := str "zopt", has_arg := 2, val := Int.ofNat 'z'.toNat }] check_store
        (str "hf.txt") 0 { instances := [], tail := none }
      = .cont 2
          (check_store (str "zopt") (some (str "foo")) { instances := [], tail := none })
          [] := by
  have h := C6_optional_attached 2 [str "prog", str "-zfoo"] (str "z::")
    [{ name := str "zopt", has_arg := 2, val := Int.ofNat 'z'.toNat }] check_store
    (str "hf.txt") 0 { instances := [], tail := none } 'z' (some (str "foo")) 2 0 0 0
    (by decide) (by decide) (by decide) (by decide) (by decide) (by decide) (by decide)
    (by decide) (by decide) (by decide) (by decide)
  exact h.trans (by decide)

/-- Claim C1: for a long option whose canonical name ends with "mca"
and is declared with a required argument, on input
["prog","--<name>","key","value"] the parse stores exactly the one
value "key=value" under the key <name>, consumes both following tokens
(neither "key" nor "value" ends up in the tail, which stays empty) and
returns success.  Lines 144-154 of cmd_line.c. -/
theorem C1_mca_two_token (nm k v : List Char) (shorts : List Char)
    (myoptions : List struct_option) (helpfile : List Char) (i : Nat)
    (hnm : nm ≠ [])
    (hne : ('=' : Char) ∉ nm)
    (hmca : endswith nm (str "mca") = PRTE_SUCCESS)
    (hkh : k ∉ helpLits5)
    (hfind : List.findIdx? (fun o => decide (o.name = nm)) myoptions = some i)
    (hget : myoptions.getD i { name := [], has_arg := 0, val := 0 }
              = { name := nm, has_arg := 1, val := 0 })
    (hstrip : pmix_argv_copy_strip [str "prog", str "--" ++ nm, k, v]
                = [str "prog", str "--" ++ nm, k, v]) :
    prte_cmd_line_parse [str "prog", str "--" ++ nm, k, v] shorts myoptions none
        { instances := [], tail := none } helpfile
      = (PRTE_SUCCESS,
         { instances := [{ key := nm, values := [k ++ '=' :: v] }], tail := none },
         []) := by
  have hsplit : split_eq nm = (nm, none) := split_eq_of_no_eq nm hne
  have h2 : (str "--").length = 2 := rfl
  have hpos : 0 < nm.length := List.length_pos.mpr hnm
  have htake : (str "--" ++ nm).take 2 = str "--" := List.take_left' h2
  have hdrop : (str "--" ++ nm).drop 2 = nm := List.drop_left' h2
  have hlen2 : 2 < (str "--" ++ nm).length := by
    rw [List.length_append, h2]; omega
  have hne2 : ¬(str "--" ++ nm = str "--") := by
    intro hc
    have hlc := congrArg List.length hc
    rw [List.length_append, h2] at hlc
    omega
  have hget' : myoptions[i]?.getD
      ({ name := [], has_arg := 0, val := 0 } : struct_option)
      = { name := nm, has_arg := 1, val := 0 } := by
    rw [← List.getD_eq_getElem?_getD]; exact hget
  have hlen2' : 2 < (str "--").length + nm.length := by
    rw [h2]; omega
  have hg1 : getopt_long 4 [str "prog", str "--" ++ nm, k, v] shorts myoptions 0
      = { opt := 0, optarg := some k, optind := 3, option_index := i } := by
    simp [getopt_long, argvAt, hne2, htake, hdrop, hsplit, hfind, hget', hlen2, hlen2']
  have hany : Option.any (fun a => decide (a ∈ helpLits5)) (some k) = false := by
    simpa using hkh
  have hmca' : endswith (myoptions.getD i
      { name := [], has_arg := 0, val := 0 }).name (str "mca") = PRTE_SUCCESS := by
    rw [hget]; exact hmca
  have hstep1 : parse_step 4 [str "prog", str "--" ++ nm, k, v] shorts myoptions
      check_store helpfile 0 { instances := [], tail := none }
      = .cont 4
          (check_store nm (some (k ++ '=' :: v)) { instances := [], tail := none })
          [] := by
    simp only [parse_step, hg1, hany]
    rw [if_neg (by decide : ¬((0 : Int) = -1)), if_pos trivial,
        if_neg (by decide : ¬(false = true)), if_pos hmca']
    rw [hget]
    simp [argvAt]
  have hstep2 : parse_step 4 [str "prog", str "--" ++ nm, k, v] shorts myoptions
      check_store helpfile 4
      (check_store nm (some (k ++ '=' :: v)) { instances := [], tail := none })
      = .done 4 := by
    simp [parse_step, getopt_long]
  have hentry : prte_cmd_line_parse [str "prog", str "--" ++ nm, k, v] shorts myoptions none
      { instances := [], tail := none } helpfile
      = parse_loop (4 + 2) 4 [str "prog", str "--" ++ nm, k, v] shorts myoptions check_store
          helpfile 0 { instances := [], tail := none } [] := by
    unfold prte_cmd_line_parse
    rw [hstrip]
    rfl
  have t1 := parse_loop_cont 5 4 [str "prog", str "--" ++ nm, k, v] shorts myoptions
    check_store helpfile 0 { instances := [], tail := none } [] 4
    (check_store nm (some (k ++ '=' :: v)) { instances := [], tail := none }) [] hstep1
  have t2 := parse_loop_done 4 4 [str "prog", str "--" ++ nm, k, v] shorts myoptions
    check_store helpfile 4
    (check_store nm (some (k ++ '=' :: v)) { instances := [], tail := none }) ([] ++ []) 4
    hstep2
  refine hentry.trans (t1.trans (t2.trans ?_))
  rw [if_neg (by decide : ¬(4 < 4))]
  simp [check_store, check_store_scan]

/-- Witness for C1 at the spec example: option `myplugin_mca` with
required argument and input `["prog","--myplugin_mca","key","value"]`
stores the single value "key=value" under `myplugin_mca`. -/
theorem C1_mca_two_token_witness :
    prte_cmd_line_parse [str "prog", str "--" ++ str "myplugin_mca", str "key", str "value"]
        [] [{ name := str "myplugin_mca", has_arg := 1, val := 0 }] none
        { instances := [], tail := none } (str "hf.txt")
      = (PRTE_SUCCESS,
         { instances := [{ key := str "myplugin_mca", values := [str "key=value"] }],
           tail := none },
         []) := by
  have h := C1_mca_two_token (str "myplugin_mca") (str "key") (str "value") []
    [{ name := str "myplugin_mca", has_arg := 1, val := 0 }] (str "hf.txt") 0
    (by decide) (by decide) (by decide) (by decide) (by decide) (by decide) (by decide)
  exact h.trans (by decide)
